import Mathlib

/-!
Verification of the Jabar Bansos analytics dashboard (`app.py`).

The dashboard is a single Streamlit script: it loads two CSV tables
(`data_timeseries_bansos_jabar.csv` with columns Wilayah/Tahun/Realisasi and
`hasil_spk_topsis.csv` with columns Wilayah/Ranking/Skor_TOPSIS/C1_Volume/
C2_Efektivitas/C3_Tren_Pertumbuhan/C4_Stabilitas), filters the time-series
table by a region multiselect and a year-range slider, computes four KPIs,
builds three chart specifications, shows the ranking table and offers a CSV
download of it.

This file embeds the script shallowly: tables are lists of records, numbers
are `Rat` (modelling pandas float64 values exactly on the rational values
that occur), pandas operations become the corresponding pure list functions,
and the sequential top-to-bottom rendering pass becomes a function into
`Except String Render`, where `Except.error` models an uncaught Python
exception terminating the pass.
-/

/-- One row of `data_timeseries_bansos_jabar.csv`: region, year, realised
disbursement count. -/
structure TSRow where
  Wilayah : String
  Tahun : Int
  Realisasi : Rat
deriving DecidableEq

/-- One row of `hasil_spk_topsis.csv`: region, TOPSIS rank and score, and the
four criterion columns. -/
structure SPKRow where
  Wilayah : String
  Ranking : Int
  Skor_TOPSIS : Rat
  C1_Volume : Rat
  C2_Efektivitas : Rat
  C3_Tren_Pertumbuhan : Rat
  C4_Stabilitas : Rat
deriving DecidableEq

/-- Embeds `app.py` line 89-93:
`df_ts[(df_ts['Wilayah'].isin(selected_regions)) & (df_ts['Tahun'] >= selected_years[0]) & (df_ts['Tahun'] <= selected_years[1])]`. -/
def filterTs (ts : List TSRow) (R : List String) (lo hi : Int) : List TSRow :=
  ts.filter (fun r =>
    R.contains r.Wilayah && decide (lo ≤ r.Tahun) && decide (r.Tahun ≤ hi))

/-- Embeds `app.py` line 77: `max_year = int(df_ts['Tahun'].max())` — the pandas
column maximum, defined on nonempty tables (`int(nan)` faults on an empty
one; the render pass below models that fault separately). -/
def maxYear : List TSRow → Int
  | [] => 0
  | h :: t => t.foldl (fun m r => max m r.Tahun) h.Tahun

/-- Embeds `app.py` line 105:
`total_realisasi_2024 = df_ts[df_ts['Tahun'] == max_year]['Realisasi'].sum()` —
computed over the UNFILTERED `df_ts`. -/
def totalRealisasi (ts : List TSRow) : Rat :=
  ((ts.filter (fun r => r.Tahun == maxYear ts)).map (·.Realisasi)).sum

/-- pandas `Series.mean()`: sum divided by length (`Rat` division, so the
empty-series NaN is modelled as 0; no claim depends on that case). -/
def seriesMean (xs : List Rat) : Rat := xs.sum / (xs.length : Rat)

/-- Embeds `app.py` line 109: `avg_eff = df_spk['C2_Efektivitas'].mean()`. -/
def avg_eff (spk : List SPKRow) : Rat := seriesMean (spk.map (·.C2_Efektivitas))

/-- Embeds `app.py` line 113: `df_spk.loc[df_spk['Ranking'] == 1, 'Wilayah'].values[0]`.
`values[0]` on an empty selection raises `IndexError`; that fault is modelled
by `none`. -/
def topRegion (spk : List SPKRow) : Option String :=
  ((spk.filter (fun r => r.Ranking == 1)).head?).map (·.Wilayah)

/-- Embeds `app.py` line 114: `df_spk.loc[df_spk['Ranking'] == 1, 'Skor_TOPSIS'].values[0]`. -/
def topScore (spk : List SPKRow) : Option Rat :=
  ((spk.filter (fun r => r.Ranking == 1)).head?).map (·.Skor_TOPSIS)

/-- Embeds `app.py` line 119: `df_spk.loc[df_spk['C4_Stabilitas'].idxmin(), 'Wilayah']`.
pandas `idxmin` returns the label of the first row attaining the column
minimum, scanning in table order and keeping the current row unless a later
row is strictly smaller; it raises `ValueError` on an empty column (`none`). -/
def idxminC4 : List SPKRow → Option SPKRow
  | [] => none
  | h :: t =>
    some (t.foldl (fun acc r => if r.C4_Stabilitas < acc.C4_Stabilitas then r else acc) h)

/-- Embeds `app.py` line 120: `stable_value = df_spk['C4_Stabilitas'].min()`. -/
def minC4 : List SPKRow → Rat
  | [] => 0
  | h :: t => t.foldl (fun m r => min m r.C4_Stabilitas) h.C4_Stabilitas

/-- The encoded fields of the `px.line` trend chart (`app.py` lines 134-143). -/
structure LineChartSpec where
  rows : List TSRow
  xField : String
  yField : String
  colorField : String
  markers : Bool
deriving DecidableEq

/-- Outcome of the trend-chart column: either a chart or the `st.warning`
notice (`app.py` lines 133-147). -/
inductive TrendView where
  | chart : LineChartSpec → TrendView
  | notice : String → TrendView
deriving DecidableEq

/-- Embeds `app.py` lines 133-147: `if not df_ts_filtered.empty:` build `px.line`,
`else:` show the warning notice. -/
def trendView (filtered : List TSRow) : TrendView :=
  if !filtered.isEmpty then
    TrendView.chart ⟨filtered, "Tahun", "Realisasi", "Wilayah", true⟩
  else
    TrendView.notice ("Silakan pilih wilayah di sidebar untuk melihat grafik.")

/-- The relation `app.py` line 153 sorts by: ascending `Ranking`. -/
def rankLE (a b : SPKRow) : Prop := a.Ranking ≤ b.Ranking

instance : DecidableRel rankLE := fun a b => Int.decLe a.Ranking b.Ranking

instance : IsTotal SPKRow rankLE := ⟨fun a b => Int.le_total a.Ranking b.Ranking⟩

instance : IsTrans SPKRow rankLE := ⟨fun _ _ _ h h' => Int.le_trans h h'⟩

/-- Embeds `app.py` line 153: `top_10 = df_spk.sort_values('Ranking').head(10)`.
(`sort_values` with unique keys is determined up to nothing — any comparison
sort gives the same list; we embed it as insertion sort by `Ranking`.) -/
def top_10 (spk : List SPKRow) : List SPKRow :=
  (List.insertionSort rankLE spk).take 10

/-- The encoded fields of the `px.bar` ranking chart (`app.py` lines 155-167):
horizontal bars, `yaxis autorange reversed` so the first row (rank 1) is on
top. -/
structure BarChartSpec where
  rows : List SPKRow
  xField : String
  yField : String
  colorField : String
  yReversed : Bool
deriving DecidableEq

/-- Embeds `app.py` lines 155-167. -/
def fig_bar (spk : List SPKRow) : BarChartSpec :=
  ⟨top_10 spk, "Skor_TOPSIS", "Wilayah", "Skor_TOPSIS", true⟩

/-- The encoded fields of the `px.scatter` quadrant chart plus its two mean
reference lines (`app.py` lines 182-201). -/
structure ScatterSpec where
  rows : List SPKRow
  xField : String
  yField : String
  sizeField : String
  colorField : String
  vlineX : Rat
  hlineY : Rat
deriving DecidableEq

/-- Embeds `app.py` lines 182-201: scatter over the full unfiltered ranking table,
mean lines at the column means. -/
def fig_scatter (spk : List SPKRow) : ScatterSpec :=
  ⟨spk, "C2_Efektivitas", "C4_Stabilitas", "C1_Volume", "Ranking",
    seriesMean (spk.map (·.C2_Efektivitas)), seriesMean (spk.map (·.C4_Stabilitas))⟩

/-- Decimal rendering of a natural number, most significant digit first
(pandas writes raw numeric values in decimal when serializing with
`to_csv`). -/
def natToChars (n : Nat) : List Char :=
  if _h : n < 10 then [Nat.digitChar n]
  else natToChars (n / 10) ++ [Nat.digitChar (n % 10)]
termination_by n
decreasing_by exact Nat.div_lt_self (by omega) (by omega)

/-- Inverse of `Nat.digitChar` on decimal digits. -/
def charToDigit (c : Char) : Option Nat :=
  if c.isDigit then some (c.toNat - 48) else none

/-- Horner-style decimal parse of a digit string. -/
def natParseCore (cs : List Char) : Option Nat :=
  cs.foldl (fun acc c => acc.bind (fun a => (charToDigit c).map (fun d => a * 10 + d)))
    (some 0)

/-- Decimal parse; an empty cell is not a number. -/
def natParse (cs : List Char) : Option Nat :=
  if cs.isEmpty then none else natParseCore cs

/-- Signed decimal rendering. -/
def intToChars (i : Int) : List Char :=
  if i < 0 then '-' :: natToChars i.natAbs else natToChars i.natAbs

/-- Signed decimal parse. -/
def intParse (cs : List Char) : Option Int :=
  match cs with
  | [] => none
  | c :: rest =>
    if c = '-' then (natParse rest).map (fun n => -(n : Int))
    else (natParse cs).map (fun n => (n : Int))

/-- Raw (unformatted) serialization of a rational cell value: the numerator,
then `/denominator` when the value is not an integer. This is the injective
raw-value encoding modelling pandas' round-tripping float repr; it is NOT the
display formatting of the detail table (`"{:.4f}"` etc., `app.py` 215-220). -/
def ratToChars (q : Rat) : List Char :=
  intToChars q.num ++ (if q.den = 1 then [] else '/' :: natToChars q.den)

/-- Split a cell at the first `'/'`, if any. -/
def splitSlash : List Char → List Char × Option (List Char)
  | [] => ([], none)
  | c :: cs =>
    if c = '/' then ([], some cs)
    else ((splitSlash cs).1.cons c, (splitSlash cs).2)

/-- Parse of a rational cell. -/
def ratParse (cs : List Char) : Option Rat :=
  match (splitSlash cs).2 with
  | none => (intParse cs).map (fun i => (i : Rat))
  | some dcs =>
    (intParse (splitSlash cs).1).bind fun n =>
      (natParse dcs).map fun d => (n : Rat) / (d : Rat)

/-- An integer CSV cell. -/
def intCell (i : Int) : String := String.mk (intToChars i)

/-- A rational CSV cell. -/
def ratCell (q : Rat) : String := String.mk (ratToChars q)

/-- Parse an integer CSV cell. -/
def intParseCell (s : String) : Option Int := intParse s.data

/-- Parse a rational CSV cell. -/
def ratParseCell (s : String) : Option Rat := ratParse s.data

/-- The header row `to_csv` writes: the dataframe's column order. -/
def headerRow : List String :=
  ["Wilayah", "Ranking", "Skor_TOPSIS", "C1_Volume", "C2_Efektivitas",
   "C3_Tren_Pertumbuhan", "C4_Stabilitas"]

/-- One data row of the export: the raw cell values of an `SPKRow`, in column
order, with no index cell (`index=False`). -/
def rowToCells (r : SPKRow) : List String :=
  [r.Wilayah, intCell r.Ranking, ratCell r.Skor_TOPSIS, ratCell r.C1_Volume,
   ratCell r.C2_Efektivitas, ratCell r.C3_Tren_Pertumbuhan, ratCell r.C4_Stabilitas]

/-- Embeds `app.py` line 226: `csv = df_spk.to_csv(index=False)` — header row followed
by one row of raw cells per table row, no index column. (The byte-level
comma/quote framing of the cell grid is the plotting library's and pandas'
concern; the export is modelled at the cell grid level.) -/
def to_csv (spk : List SPKRow) : List (List String) :=
  headerRow :: spk.map rowToCells

/-- Re-parse one exported row back into an `SPKRow` (`pd.read_csv` on the
download). -/
def parseRow : List String → Option SPKRow
  | [w, rk, sc, c1, c2, c3, c4] =>
    (intParseCell rk).bind fun rk' =>
    (ratParseCell sc).bind fun sc' =>
    (ratParseCell c1).bind fun c1' =>
    (ratParseCell c2).bind fun c2' =>
    (ratParseCell c3).bind fun c3' =>
    (ratParseCell c4).map fun c4' =>
    ⟨w, rk', sc', c1', c2', c3', c4'⟩
  | _ => none

/-- Re-parse the whole export: check the header, then parse every data row. -/
def parseCsv : List (List String) → Option (List SPKRow)
  | [] => none
  | h :: body => if h = headerRow then body.mapM parseRow else none

/-- Everything one top-to-bottom evaluation of the script renders, plus the
values the `df_ts` / `df_spk` variables hold when the script ends. -/
structure Render where
  df_ts_filtered : List TSRow
  kpi_total : Rat
  kpi_avg_eff : Rat
  kpi_top_wilayah : String
  kpi_top_skor : Rat
  kpi_stable_wilayah : String
  kpi_stable_value : Rat
  trend : TrendView
  bar : BarChartSpec
  scatter : ScatterSpec
  tableRows : List SPKRow
  csvOut : List (List String)
  final_ts : List TSRow
  final_spk : List SPKRow
deriving DecidableEq

/-- One top-to-bottom rendering pass over loaded tables (`app.py` lines
62-232). `Except.error` models an uncaught Python exception terminating the
pass: `int(df_ts['Tahun'].max())` on an empty table (line 76-77), `values[0]`
on an empty rank-1 selection (line 113-114), `idxmin` on an empty column
(line 119) — in script order. -/
def renderPass (ts : List TSRow) (spk : List SPKRow) (R : List String)
    (lo hi : Int) : Except String Render :=
  if ts.isEmpty then
    Except.error ("ValueError: cannot convert float NaN to integer")
  else
    let filtered := filterTs ts R lo hi
    match topRegion spk, topScore spk with
    | some w3, some s3 =>
      match idxminC4 spk with
      | some r4 =>
        Except.ok ⟨filtered, totalRealisasi ts, avg_eff spk, w3, s3,
          r4.Wilayah, minC4 spk, trendView filtered, fig_bar spk,
          fig_scatter spk, spk, to_csv spk, ts, spk⟩
      | none => Except.error ("ValueError: attempt to get argmin of an empty sequence")
    | _, _ => Except.error ("IndexError: index 0 is out of bounds for axis 0 with size 0")

/-- Embeds `app.py` lines 34-50: read both CSV files inside one `try`; on
`FileNotFoundError` for either, show `st.error` and return `(None, None)`.
The file system is modelled as the optional contents of the two files. -/
def load_data (fsTs : Option (List TSRow)) (fsSpk : Option (List SPKRow)) :
    Option (List TSRow) × Option (List SPKRow) × List String :=
  match fsTs, fsSpk with
  | some ts, some spk => (some ts, some spk, [])
  | _, _ => (none, none, ["File CSV tidak ditemukan!"])

/-- The observable outcome of one full script run. -/
inductive ScriptOutput where
  | halted : List String → ScriptOutput
  | fault : String → ScriptOutput
  | page : Render → ScriptOutput
deriving DecidableEq

/-- Embeds `app.py` lines 53-57 then 62-232: load (from cache), `st.stop()` when
either table is `None`, otherwise run the rendering pass; an uncaught
exception becomes a fatal session fault. -/
def runMain (fsTs : Option (List TSRow)) (fsSpk : Option (List SPKRow))
    (R : List String) (lo hi : Int) : ScriptOutput :=
  match load_data fsTs fsSpk with
  | (some ts, some spk, _) =>
    match renderPass ts spk R lo hi with
    | Except.ok r => ScriptOutput.page r
    | Except.error e => ScriptOutput.fault e
  | (_, _, msgs) => ScriptOutput.halted msgs

/-- One sidebar state: the multiselect and the two slider handles. -/
structure Interaction where
  regions : List String
  yearLo : Int
  yearHi : Int
deriving DecidableEq

/-- One user interaction: re-run the script against the cached tables. The
pair of tables is the session state threaded through; the pass returns the
state it leaves behind together with what it rendered. -/
def interactOnce (st : List TSRow × List SPKRow) (a : Interaction) :
    (List TSRow × List SPKRow) × Except String Render :=
  (st, renderPass st.1 st.2 a.regions a.yearLo a.yearHi)

/-- A whole session: the cached tables threaded through a sequence of
interactions, collecting each pass's outcome. -/
def runSession (st : List TSRow × List SPKRow) :
    List Interaction → (List TSRow × List SPKRow) × List (Except String Render)
  | [] => (st, [])
  | a :: rest =>
    let p := interactOnce st a
    let q := runSession p.1 rest
    (q.1, p.2 :: q.2)

/-- C1: the sidebar filter keeps exactly the rows whose region is selected and
whose year lies in the inclusive range, and no others. -/
theorem filterTs_mem_iff (ts : List TSRow) (R : List String) (lo hi : Int)
    (r : TSRow) :
    r ∈ filterTs ts R lo hi ↔
      r ∈ ts ∧ r.Wilayah ∈ R ∧ lo ≤ r.Tahun ∧ r.Tahun ≤ hi := by
  simp [filterTs, List.mem_filter, List.contains, List.elem_iff, and_assoc]

/-- Inversion of a successful rendering pass: every rendered field is the
corresponding pure function of the loaded tables and sidebar state. -/
theorem renderPass_ok_inv {ts : List TSRow} {spk : List SPKRow}
    {R : List String} {lo hi : Int} {out : Render}
    (h : renderPass ts spk R lo hi = Except.ok out) :
    out.kpi_total = totalRealisasi ts ∧
    out.df_ts_filtered = filterTs ts R lo hi ∧
    out.trend = trendView (filterTs ts R lo hi) ∧
    out.bar = fig_bar spk ∧
    out.csvOut = to_csv spk ∧
    out.final_ts = ts ∧ out.final_spk = spk := by
  unfold renderPass at h
  split at h
  · exact absurd h (by simp)
  · split at h
    · split at h
      · cases h
        exact ⟨rfl, rfl, rfl, rfl, rfl, rfl, rfl⟩
      · exact absurd h (by simp)
    · exact absurd h (by simp)

/-- C6: with an empty selected-region set the filter returns the empty table,
and the trend column takes the `st.warning` branch (the "select a region"
notice) rather than building a chart or failing. -/
theorem empty_region_filter_notice (ts : List TSRow) (lo hi : Int) :
    filterTs ts [] lo hi = [] ∧
    trendView (filterTs ts [] lo hi) =
      TrendView.notice ("Silakan pilih wilayah di sidebar untuk melihat grafik.") := by
  have hnil : filterTs ts [] lo hi = [] := by simp [filterTs]
  exact ⟨hnil, by rw [hnil]; rfl⟩

/-- C9: a session never mutates the loaded tables — after any sequence of
interactions the threaded table state is the loader's value, and every page a
pass rendered still holds exactly the loaded tables in its script-final
variables. -/
theorem session_never_mutates (st : List TSRow × List SPKRow)
    (acts : List Interaction) :
    (runSession st acts).1 = st ∧
    ∀ o ∈ (runSession st acts).2, ∀ r, o = Except.ok r →
      r.final_ts = st.1 ∧ r.final_spk = st.2 := by
  induction acts generalizing st with
  | nil => exact ⟨rfl, by simp [runSession]⟩
  | cons a rest ih =>
    refine ⟨?_, ?_⟩
    · simpa [runSession, interactOnce] using (ih st).1
    · intro o ho r hr
      simp only [runSession, interactOnce, List.mem_cons] at ho
      rcases ho with ho | ho
      · rw [ho] at hr
        obtain ⟨-, -, -, -, -, h6, h7⟩ := renderPass_ok_inv hr
        exact ⟨h6, h7⟩
      · exact (ih st).2 o ho r hr

/-- C7: if either input file is absent, `load_data` reports the error and
returns `(None, None)`, and the script halts at `st.stop()` before any KPI,
chart or table is computed. -/
theorem missing_file_halts (fsTs : Option (List TSRow))
    (fsSpk : Option (List SPKRow)) (R : List String) (lo hi : Int)
    (h : fsTs = none ∨ fsSpk = none) :
    load_data fsTs fsSpk = (none, none, ["File CSV tidak ditemukan!"]) ∧
    runMain fsTs fsSpk R lo hi = ScriptOutput.halted ["File CSV tidak ditemukan!"] := by
  have hl : load_data fsTs fsSpk = (none, none, ["File CSV tidak ditemukan!"]) := by
    rcases h with h | h
    · subst h; cases fsSpk <;> rfl
    · subst h; cases fsTs <;> rfl
  exact ⟨hl, by unfold runMain; rw [hl]⟩

/-- Witness for C7 at a concrete absent time-series file. -/
theorem missing_file_halts_witness :
    ((none : Option (List TSRow)) = none ∨ (some ([] : List SPKRow)) = none) ∧
    (load_data none (some []) = (none, none, ["File CSV tidak ditemukan!"]) ∧
     runMain none (some []) [] 2018 2024 = ScriptOutput.halted ["File CSV tidak ditemukan!"]) :=
  ⟨Or.inl rfl, missing_file_halts none (some []) [] 2018 2024 (Or.inl rfl)⟩

/-- C5: when no row of the ranking table has `Ranking = 1` (in particular on
an empty table), the rank-1 KPI's `values[0]` has nothing to return
(modelled `none`) and no rendering pass over such a table ever completes —
nothing catches the fault. -/
theorem no_rank1_row_faults (ts : List TSRow) (spk : List SPKRow)
    (R : List String) (lo hi : Int) (h : ∀ r ∈ spk, r.Ranking ≠ 1) :
    topRegion spk = none ∧
    ∀ out, renderPass ts spk R lo hi ≠ Except.ok out := by
  have hfil : spk.filter (fun r => r.Ranking == 1) = [] := by
    rw [List.filter_eq_nil_iff]
    intro r hr
    simpa using h r hr
  have htop : topRegion spk = none := by simp [topRegion, hfil]
  refine ⟨htop, ?_⟩
  intro out hout
  unfold renderPass at hout
  split at hout
  · exact absurd hout (by simp)
  · split at hout
    · rename_i w3 s3 heq _
      rw [htop] at heq
      exact absurd heq (by simp)
    · exact absurd hout (by simp)

/-- Witness for C5: an empty ranking table with a nonempty time-series
table. -/
theorem no_rank1_row_faults_witness :
    (∀ r ∈ ([] : List SPKRow), r.Ranking ≠ 1) ∧
    (topRegion [] = none ∧
     ∀ out, renderPass [⟨"Bogor", 2020, 10⟩] [] [] 2018 2024 ≠ Except.ok out) :=
  ⟨by simp, no_rank1_row_faults [⟨"Bogor", 2020, 10⟩] [] [] 2018 2024 (by simp)⟩

/-- The head of a filtered list is the first element satisfying the
predicate. -/
theorem head?_filter_eq_find? {α : Type} (p : α → Bool) (l : List α) :
    (l.filter p).head? = l.find? p := by
  induction l with
  | nil => rfl
  | cons a t ih =>
    by_cases hp : p a <;> simp [List.filter_cons, List.find?_cons, hp, ih]

/-- A left fold of `max` over keys only grows the accumulator. -/
theorem le_foldl_keyMax {α β : Type} [LinearOrder β] (k : α → β) (t : List α) :
    ∀ a : β, a ≤ t.foldl (fun m r => max m (k r)) a := by
  induction t with
  | nil => intro a; exact le_rfl
  | cons s t ih =>
    intro a
    simp only [List.foldl_cons]
    exact le_trans (le_max_left a (k s)) (ih (max a (k s)))

/-- A left fold of `max` over keys bounds every key of the list. -/
theorem key_le_foldl_keyMax {α β : Type} [LinearOrder β] (k : α → β)
    (t : List α) : ∀ a : β, ∀ r ∈ t, k r ≤ t.foldl (fun m r => max m (k r)) a := by
  induction t with
  | nil => simp
  | cons s t ih =>
    intro a r hr
    simp only [List.foldl_cons]
    rcases List.mem_cons.mp hr with h | h
    · subst h
      exact le_trans (le_max_right a (k r)) (le_foldl_keyMax k t _)
    · exact ih _ r h

/-- A left fold of `max` over keys is the initial value or one of the keys. -/
theorem foldl_keyMax_eq_or_mem {α β : Type} [LinearOrder β] (k : α → β)
    (t : List α) :
    ∀ a : β, t.foldl (fun m r => max m (k r)) a = a ∨
      t.foldl (fun m r => max m (k r)) a ∈ t.map k := by
  induction t with
  | nil => intro a; exact Or.inl rfl
  | cons s t ih =>
    intro a
    simp only [List.foldl_cons, List.map_cons, List.mem_cons]
    rcases ih (max a (k s)) with h | h
    · rcases max_choice a (k s) with hm | hm
      · exact Or.inl (h.trans hm)
      · exact Or.inr (Or.inl (h.trans hm))
    · exact Or.inr (Or.inr h)

/-- C2: the "total disbursement, most recent year" KPI sums `Realisasi` over
exactly the unfiltered rows whose `Tahun` is the table's maximum year (which
is a year present in the table and bounds every year), and every successful
rendering pass — whatever the sidebar regions and slider values — shows this
same value. -/
theorem kpi_total_latest_year (ts : List TSRow) (spk : List SPKRow)
    (hts : ts ≠ []) :
    totalRealisasi ts =
      ((ts.filter (fun r => decide (r.Tahun = maxYear ts))).map (·.Realisasi)).sum ∧
    maxYear ts ∈ ts.map (·.Tahun) ∧
    (∀ r ∈ ts, r.Tahun ≤ maxYear ts) ∧
    (∀ R lo hi out, renderPass ts spk R lo hi = Except.ok out →
      out.kpi_total = totalRealisasi ts) := by
  refine ⟨?_, ?_, ?_, fun R lo hi out hout => (renderPass_ok_inv hout).1⟩
  · unfold totalRealisasi
    rw [List.filter_congr (fun r _ => ?_)]
    by_cases h : r.Tahun = maxYear ts <;> simp [h]
  · cases ts with
    | nil => exact absurd rfl hts
    | cons h t =>
      simp only [maxYear, List.map_cons, List.mem_cons]
      rcases foldl_keyMax_eq_or_mem (fun r : TSRow => r.Tahun) t h.Tahun with hc | hc
      · exact Or.inl hc
      · exact Or.inr hc
  · intro r hr
    cases ts with
    | nil => exact absurd rfl hts
    | cons h t =>
      simp only [maxYear]
      rcases List.mem_cons.mp hr with h' | h'
      · subst h'
        exact le_foldl_keyMax (fun r : TSRow => r.Tahun) t r.Tahun
      · exact key_le_foldl_keyMax (fun r : TSRow => r.Tahun) t h.Tahun r h'

/-- Witness for C2 on a one-row table. -/
theorem kpi_total_latest_year_witness :
    ([(⟨"Bogor", 2024, 20⟩ : TSRow)] ≠ []) ∧
    (totalRealisasi [⟨"Bogor", 2024, 20⟩] =
       (([(⟨"Bogor", 2024, 20⟩ : TSRow)].filter
           (fun r => decide (r.Tahun = maxYear [⟨"Bogor", 2024, 20⟩]))).map
         (·.Realisasi)).sum ∧
     maxYear [⟨"Bogor", 2024, 20⟩] ∈ [(⟨"Bogor", 2024, 20⟩ : TSRow)].map (·.Tahun) ∧
     (∀ r ∈ [(⟨"Bogor", 2024, 20⟩ : TSRow)], r.Tahun ≤ maxYear [⟨"Bogor", 2024, 20⟩]) ∧
     (∀ R lo hi out, renderPass [⟨"Bogor", 2024, 20⟩] [] R lo hi = Except.ok out →
        out.kpi_total = totalRealisasi [⟨"Bogor", 2024, 20⟩])) :=
  ⟨by simp, kpi_total_latest_year [⟨"Bogor", 2024, 20⟩] [] (by simp)⟩

/-- A left fold of `min` over keys only shrinks the accumulator. -/
theorem foldl_keyMin_le {α β : Type} [LinearOrder β] (k : α → β) (t : List α) :
    ∀ a : β, t.foldl (fun m r => min m (k r)) a ≤ a := by
  induction t with
  | nil => intro a; exact le_rfl
  | cons s t ih =>
    intro a
    simp only [List.foldl_cons]
    exact le_trans (ih (min a (k s))) (min_le_left a (k s))

/-- A left fold of `min` over keys is below every key of the list. -/
theorem foldl_keyMin_le_key {α β : Type} [LinearOrder β] (k : α → β)
    (t : List α) : ∀ a : β, ∀ r ∈ t, t.foldl (fun m r => min m (k r)) a ≤ k r := by
  induction t with
  | nil => simp
  | cons s t ih =>
    intro a r hr
    simp only [List.foldl_cons]
    rcases List.mem_cons.mp hr with h | h
    · subst h
      exact le_trans (foldl_keyMin_le k t _) (min_le_right a (k r))
    · exact ih _ r h

/-- A left fold of `min` over keys is the initial value or one of the keys. -/
theorem foldl_keyMin_eq_or_mem {α β : Type} [LinearOrder β] (k : α → β)
    (t : List α) :
    ∀ a : β, t.foldl (fun m r => min m (k r)) a = a ∨
      t.foldl (fun m r => min m (k r)) a ∈ t.map k := by
  induction t with
  | nil => intro a; exact Or.inl rfl
  | cons s t ih =>
    intro a
    simp only [List.foldl_cons, List.map_cons, List.mem_cons]
    rcases ih (min a (k s)) with h | h
    · rcases min_choice a (k s) with hm | hm
      · exact Or.inl (h.trans hm)
      · exact Or.inr (Or.inl (h.trans hm))
    · exact Or.inr (Or.inr h)

/-- The key of the running strict-improvement argmin is the running `min` of
the keys. -/
theorem foldl_argmin_key {α β : Type} [LinearOrder β] (k : α → β) (t : List α) :
    ∀ acc : α, k (t.foldl (fun a r => if k r < k a then r else a) acc) =
      t.foldl (fun m r => min m (k r)) (k acc) := by
  induction t with
  | nil => intro acc; rfl
  | cons s t ih =>
    intro acc
    simp only [List.foldl_cons]
    rw [ih]
    congr 1
    by_cases h : k s < k acc
    · rw [if_pos h]
      exact (min_eq_right h.le).symm
    · rw [if_neg h]
      exact (min_eq_left (le_of_not_lt h)).symm

/-- Evaluating `find?` on a cons whose head satisfies the predicate, with the predicate
explicit. -/
theorem find?_cons_true {α : Type} (p : α → Bool) (a : α) (l : List α)
    (h : p a = true) : (a :: l).find? p = some a := by
  simp [List.find?_cons, h]

/-- Evaluating `find?` on a cons whose head fails the predicate, with the predicate
explicit. -/
theorem find?_cons_false {α : Type} (p : α → Bool) (a : α) (l : List α)
    (h : p a = false) : (a :: l).find? p = l.find? p := by
  simp [List.find?_cons, h]

/-- The strict-improvement argmin scan returns the FIRST row attaining the
minimal key: as `find?` of "key equals the column minimum" over the whole
list. This is pandas `idxmin`'s first-occurrence tie-breaking. -/
theorem foldl_argmin_eq_find? {α β : Type} [LinearOrder β] [DecidableEq β]
    (k : α → β) (t : List α) :
    ∀ acc : α,
      (acc :: t).find?
          (fun r => decide (k r = t.foldl (fun m r => min m (k r)) (k acc))) =
        some (t.foldl (fun a r => if k r < k a then r else a) acc) := by
  induction t with
  | nil =>
    intro acc
    exact find?_cons_true _ acc [] (by simp)
  | cons s t ih =>
    intro acc
    simp only [List.foldl_cons]
    by_cases hc : k s < k acc
    · rw [if_pos hc]
      simp only [min_eq_right hc.le]
      have hacc : (fun r =>
          decide (k r = t.foldl (fun m r => min m (k r)) (k s))) acc = false := by
        simp only [decide_eq_false_iff_not]
        intro he
        have h1 : t.foldl (fun m r => min m (k r)) (k s) ≤ k s :=
          foldl_keyMin_le k t (k s)
        rw [← he] at h1
        exact absurd hc (not_lt_of_le h1)
      rw [find?_cons_false
        (fun r => decide (k r = t.foldl (fun m r => min m (k r)) (k s)))
        acc (s :: t) hacc]
      exact ih s
    · rw [if_neg hc]
      simp only [min_eq_left (le_of_not_lt hc)]
      have hle : t.foldl (fun m r => min m (k r)) (k acc) ≤ k acc :=
        foldl_keyMin_le k t (k acc)
      by_cases ha : k acc = t.foldl (fun m r => min m (k r)) (k acc)
      · have hacc : (fun r =>
            decide (k r = t.foldl (fun m r => min m (k r)) (k acc))) acc = true := by
          simp only [decide_eq_true_eq]
          exact ha
        rw [find?_cons_true
          (fun r => decide (k r = t.foldl (fun m r => min m (k r)) (k acc)))
          acc (s :: t) hacc]
        have h2 := ih acc
        rw [find?_cons_true
          (fun r => decide (k r = t.foldl (fun m r => min m (k r)) (k acc)))
          acc t hacc] at h2
        exact h2
      · have hacc : (fun r =>
            decide (k r = t.foldl (fun m r => min m (k r)) (k acc))) acc = false := by
          simp only [decide_eq_false_iff_not]
          exact ha
        have hs : (fun r =>
            decide (k r = t.foldl (fun m r => min m (k r)) (k acc))) s = false := by
          simp only [decide_eq_false_iff_not]
          intro he
          exact ha (le_antisymm (he ▸ le_of_not_lt hc) hle)
        rw [find?_cons_false
          (fun r => decide (k r = t.foldl (fun m r => min m (k r)) (k acc)))
          acc (s :: t) hacc,
          find?_cons_false
          (fun r => decide (k r = t.foldl (fun m r => min m (k r)) (k acc)))
          s t hs]
        have h2 := ih acc
        rw [find?_cons_false
          (fun r => decide (k r = t.foldl (fun m r => min m (k r)) (k acc)))
          acc t hacc] at h2
        exact h2

/-- C8: on a nonempty ranking table the "most stable region" KPI reports the
`Wilayah` of the first row (in table order) whose `C4_Stabilitas` attains the
column minimum — `idxmin` first-occurrence tie-breaking — and the reported
value is that minimum, which is attained in the table and bounds the whole
column. -/
theorem stable_kpi_first_min (h0 : SPKRow) (t : List SPKRow) :
    (idxminC4 (h0 :: t)).map (·.Wilayah) =
      ((h0 :: t).find?
          (fun r => decide (r.C4_Stabilitas = minC4 (h0 :: t)))).map (·.Wilayah) ∧
    (∃ rm, idxminC4 (h0 :: t) = some rm ∧ rm.C4_Stabilitas = minC4 (h0 :: t)) ∧
    minC4 (h0 :: t) ∈ (h0 :: t).map (·.C4_Stabilitas) ∧
    (∀ r ∈ h0 :: t, minC4 (h0 :: t) ≤ r.C4_Stabilitas) := by
  have hfind := foldl_argmin_eq_find? (fun r : SPKRow => r.C4_Stabilitas) t h0
  have hkey := foldl_argmin_key (fun r : SPKRow => r.C4_Stabilitas) t h0
  refine ⟨?_, ?_, ?_, ?_⟩
  · exact (congrArg (Option.map (·.Wilayah)) hfind).symm
  · exact ⟨_, rfl, hkey⟩
  · simp only [minC4, List.map_cons, List.mem_cons]
    rcases foldl_keyMin_eq_or_mem (fun r : SPKRow => r.C4_Stabilitas) t
        h0.C4_Stabilitas with hc | hc
    · exact Or.inl hc
    · exact Or.inr hc
  · intro r hr
    simp only [minC4]
    rcases List.mem_cons.mp hr with h' | h'
    · subst h'
      exact foldl_keyMin_le (fun r : SPKRow => r.C4_Stabilitas) t r.C4_Stabilitas
    · exact foldl_keyMin_le_key (fun r : SPKRow => r.C4_Stabilitas) t
        h0.C4_Stabilitas r h'

/-- C3: with unique ranks, the ranking bar chart is built from exactly
`min(10, N)` rows, taken in strictly increasing `Ranking` order, with the
y-axis reversed so the first row — the rank-1 row when ranks are positive and
rank 1 is present — is on top. -/
theorem ranking_chart_top10 (spk : List SPKRow)
    (hnd : (spk.map (·.Ranking)).Nodup) :
    (fig_bar spk).rows.length = min 10 spk.length ∧
    (fig_bar spk).rows.Pairwise (fun a b => a.Ranking < b.Ranking) ∧
    (fig_bar spk).yReversed = true ∧
    ((∀ r ∈ spk, 1 ≤ r.Ranking) → ∀ r1 ∈ spk, r1.Ranking = 1 →
      ∃ r0, (fig_bar spk).rows.head? = some r0 ∧ r0.Ranking = 1) := by
  have hperm : (List.insertionSort rankLE spk).Perm spk :=
    List.perm_insertionSort rankLE spk
  have hsorted : List.Sorted rankLE (List.insertionSort rankLE spk) :=
    List.sorted_insertionSort rankLE spk
  refine ⟨?_, ?_, rfl, ?_⟩
  · show ((List.insertionSort rankLE spk).take 10).length = min 10 spk.length
    rw [List.length_take, List.length_insertionSort]
  · show ((List.insertionSort rankLE spk).take 10).Pairwise
      (fun a b => a.Ranking < b.Ranking)
    refine List.Pairwise.sublist (List.take_sublist 10 _) ?_
    have hnd' : ((List.insertionSort rankLE spk).map (·.Ranking)).Nodup :=
      ((hperm.map (·.Ranking)).nodup_iff).mpr hnd
    have hne : (List.insertionSort rankLE spk).Pairwise
        (fun a b => a.Ranking ≠ b.Ranking) := List.pairwise_map.mp hnd'
    exact (hsorted.and hne).imp (fun h => lt_of_le_of_ne h.1 h.2)
  · intro hpos r1 hr1 hrank1
    have hr1s : r1 ∈ List.insertionSort rankLE spk := hperm.mem_iff.mpr hr1
    cases hs : List.insertionSort rankLE spk with
    | nil => rw [hs] at hr1s; exact absurd hr1s (List.not_mem_nil r1)
    | cons b l =>
      refine ⟨b, ?_, ?_⟩
      · show ((List.insertionSort rankLE spk).take 10).head? = some b
        rw [hs]
        rfl
      · have hbmem : b ∈ spk := hperm.mem_iff.mp (hs ▸ List.mem_cons_self b l)
        have hble : b.Ranking ≤ r1.Ranking := by
          rw [hs] at hr1s hsorted
          rcases List.mem_cons.mp hr1s with h | h
          · rw [h]
          · exact List.rel_of_sorted_cons hsorted r1 h
        exact le_antisymm (hrank1 ▸ hble) (hpos b hbmem)

/-- Witness for C3: a two-row ranking table with unique ranks 1 and 2. -/
theorem ranking_chart_top10_witness :
    (([(⟨"Bogor", 1, 9, 5, 7, 3, 2⟩ : SPKRow), ⟨"Depok", 2, 8, 4, 6, 2, 5⟩].map
        (·.Ranking)).Nodup) ∧
    ((fig_bar [⟨"Bogor", 1, 9, 5, 7, 3, 2⟩, ⟨"Depok", 2, 8, 4, 6, 2, 5⟩]).rows.length =
        min 10 ([(⟨"Bogor", 1, 9, 5, 7, 3, 2⟩ : SPKRow), ⟨"Depok", 2, 8, 4, 6, 2, 5⟩]).length ∧
     (fig_bar [⟨"Bogor", 1, 9, 5, 7, 3, 2⟩, ⟨"Depok", 2, 8, 4, 6, 2, 5⟩]).rows.Pairwise
        (fun a b => a.Ranking < b.Ranking) ∧
     (fig_bar [⟨"Bogor", 1, 9, 5, 7, 3, 2⟩, ⟨"Depok", 2, 8, 4, 6, 2, 5⟩]).yReversed = true ∧
     ((∀ r ∈ [(⟨"Bogor", 1, 9, 5, 7, 3, 2⟩ : SPKRow), ⟨"Depok", 2, 8, 4, 6, 2, 5⟩],
          1 ≤ r.Ranking) →
       ∀ r1 ∈ [(⟨"Bogor", 1, 9, 5, 7, 3, 2⟩ : SPKRow), ⟨"Depok", 2, 8, 4, 6, 2, 5⟩],
         r1.Ranking = 1 →
       ∃ r0, (fig_bar [⟨"Bogor", 1, 9, 5, 7, 3, 2⟩,
           ⟨"Depok", 2, 8, 4, 6, 2, 5⟩]).rows.head? = some r0 ∧ r0.Ranking = 1)) :=
  ⟨by decide, ranking_chart_top10
    [⟨"Bogor", 1, 9, 5, 7, 3, 2⟩, ⟨"Depok", 2, 8, 4, 6, 2, 5⟩] (by decide)⟩

/-- The image under `Nat.digitChar` of a decimal digit is a decimal digit character. -/
theorem digitChar_isDigit : ∀ d : Nat, d < 10 → (Nat.digitChar d).isDigit = true := by
  decide

/-- The parse `charToDigit` inverts `Nat.digitChar` on decimal digits. -/
theorem charToDigit_digitChar : ∀ d : Nat, d < 10 →
    charToDigit (Nat.digitChar d) = some d := by
  decide

/-- A decimal rendering is never the empty cell. -/
theorem natToChars_ne_nil (n : Nat) : natToChars n ≠ [] := by
  rw [natToChars]
  by_cases h : n < 10
  · rw [dif_pos h]
    simp
  · rw [dif_neg h]
    simp

/-- Every character of a decimal rendering is a digit character. -/
theorem mem_natToChars_isDigit (n : Nat) : ∀ c ∈ natToChars n, c.isDigit = true := by
  induction n using Nat.strong_induction_on with
  | _ n ih =>
    rw [natToChars]
    by_cases h : n < 10
    · rw [dif_pos h]
      intro c hc
      rw [List.mem_singleton.mp hc]
      exact digitChar_isDigit n h
    · rw [dif_neg h]
      intro c hc
      rcases List.mem_append.mp hc with h1 | h1
      · exact ih (n / 10) (Nat.div_lt_self (by omega) (by omega)) c h1
      · rw [List.mem_singleton.mp h1]
        exact digitChar_isDigit (n % 10) (Nat.mod_lt n (by omega))

/-- Peeling the last digit off a Horner-style parse. -/
theorem natParseCore_append_digit (cs : List Char) (c : Char) :
    natParseCore (cs ++ [c]) =
      (natParseCore cs).bind fun a => (charToDigit c).map fun d => a * 10 + d := by
  simp [natParseCore, List.foldl_append]

/-- The decimal parse inverts the decimal rendering. -/
theorem natParseCore_natToChars (n : Nat) : natParseCore (natToChars n) = some n := by
  induction n using Nat.strong_induction_on with
  | _ n ih =>
    rw [natToChars]
    by_cases h : n < 10
    · rw [dif_pos h]
      simp [natParseCore, charToDigit_digitChar n h]
    · rw [dif_neg h]
      rw [natParseCore_append_digit,
        ih (n / 10) (Nat.div_lt_self (by omega) (by omega)),
        charToDigit_digitChar (n % 10) (Nat.mod_lt n (by omega))]
      have hrep : n / 10 * 10 + n % 10 = n := by omega
      simp [hrep]

/-- The guarded decimal parse inverts the decimal rendering. -/
theorem natParse_natToChars (n : Nat) : natParse (natToChars n) = some n := by
  have h2 : (natToChars n).isEmpty = false := by
    cases hc : natToChars n with
    | nil => exact absurd hc (natToChars_ne_nil n)
    | cons a l => rfl
  simp [natParse, h2, natParseCore_natToChars n]

/-- The signed decimal parse inverts the signed decimal rendering. -/
theorem intParse_intToChars (i : Int) : intParse (intToChars i) = some i := by
  unfold intToChars
  by_cases h : i < 0
  · rw [if_pos h]
    simp [intParse, natParse_natToChars]
    rw [abs_of_neg h, neg_neg]
  · rw [if_neg h]
    cases hc : natToChars i.natAbs with
    | nil => exact absurd hc (natToChars_ne_nil _)
    | cons c rest =>
      have hd : c.isDigit = true :=
        mem_natToChars_isDigit _ c (hc ▸ List.mem_cons_self c rest)
      have hne : ¬(c = '-') := by
        intro he
        rw [he] at hd
        exact absurd hd (by decide)
      have hv : ((i.natAbs : Int)) = i := by omega
      simp only [intParse, if_neg hne]
      rw [← hc, natParse_natToChars]
      simp [hv]

/-- The split `splitSlash` leaves a slash-free cell whole. -/
theorem splitSlash_no_slash (cs : List Char) (h : '/' ∉ cs) :
    splitSlash cs = (cs, none) := by
  induction cs with
  | nil => rfl
  | cons c t ih =>
    have hc : ¬(c = '/') := fun he => h (he ▸ List.mem_cons_self c t)
    simp only [splitSlash]
    rw [if_neg hc, ih (fun hm => h (List.mem_cons_of_mem c hm))]

/-- The split `splitSlash` splits at the first slash. -/
theorem splitSlash_append (xs ys : List Char) (h : '/' ∉ xs) :
    splitSlash (xs ++ '/' :: ys) = (xs, some ys) := by
  induction xs with
  | nil => simp [splitSlash]
  | cons c t ih =>
    have hc : ¬(c = '/') := fun he => h (he ▸ List.mem_cons_self c t)
    simp only [List.cons_append, splitSlash, List.append_eq]
    rw [if_neg hc, ih (fun hm => h (List.mem_cons_of_mem c hm))]

/-- A signed decimal rendering contains no slash. -/
theorem slash_not_mem_intToChars (i : Int) : '/' ∉ intToChars i := by
  unfold intToChars
  intro hm
  by_cases h : i < 0
  · rw [if_pos h] at hm
    rcases List.mem_cons.mp hm with h1 | h1
    · exact absurd h1 (by decide)
    · exact absurd (mem_natToChars_isDigit _ _ h1) (by decide)
  · rw [if_neg h] at hm
    exact absurd (mem_natToChars_isDigit _ _ hm) (by decide)

/-- The rational-cell parse inverts the raw rational-cell rendering. -/
theorem ratParse_ratToChars (q : Rat) : ratParse (ratToChars q) = some q := by
  unfold ratToChars ratParse
  by_cases h : q.den = 1
  · rw [if_pos h, List.append_nil,
      splitSlash_no_slash _ (slash_not_mem_intToChars q.num)]
    simp [intParse_intToChars, Rat.coe_int_num_of_den_eq_one h]
  · rw [if_neg h, splitSlash_append _ _ (slash_not_mem_intToChars q.num)]
    simp [intParse_intToChars, natParse_natToChars]
    exact Rat.num_div_den q

/-- Re-parsing one exported row recovers the row. -/
theorem parseRow_rowToCells (r : SPKRow) : parseRow (rowToCells r) = some r := by
  simp [parseRow, rowToCells, intParseCell, ratParseCell, intCell, ratCell,
    intParse_intToChars, ratParse_ratToChars]

/-- Re-parsing every exported data row recovers the table. -/
theorem mapM_parseRow_map_rowToCells (t : List SPKRow) :
    (t.map rowToCells).mapM parseRow = some t := by
  induction t with
  | nil => rfl
  | cons r t ih =>
    simp only [List.map_cons, List.mapM_cons, parseRow_rowToCells, ih]
    simp

/-- C4: serializing the ranking table to the CSV export grid — header row,
raw unformatted cell values, no index column — and re-parsing it yields
exactly the in-memory ranking table, value for value. -/
theorem export_roundtrip (spk : List SPKRow) :
    parseCsv (to_csv spk) = some spk ∧
    to_csv spk = headerRow :: spk.map rowToCells := by
  refine ⟨?_, rfl⟩
  show parseCsv (headerRow :: spk.map rowToCells) = some spk
  simp only [parseCsv, eq_self_iff_true, if_true]
  exact mapM_parseRow_map_rowToCells spk

/-- C10: with several rank-1 rows the rank-1 KPI does not fault — both its
region and its score come from the first rank-1 row in table order. -/
theorem rank1_duplicates_first_row (spk : List SPKRow) (r : SPKRow)
    (h : spk.find? (fun s => s.Ranking == 1) = some r) :
    topRegion spk = some r.Wilayah ∧ topScore spk = some r.Skor_TOPSIS := by
  constructor <;> simp [topRegion, topScore, head?_filter_eq_find?, h]

/-- Witness for C10 on a table with two rank-1 rows: the first one wins. -/
theorem rank1_duplicates_first_row_witness :
    ([(⟨"Bogor", 1, 9, 5, 7, 3, 2⟩ : SPKRow), ⟨"Depok", 1, 8, 4, 6, 2, 5⟩].find?
        (fun s => s.Ranking == 1) = some ⟨"Bogor", 1, 9, 5, 7, 3, 2⟩) ∧
    (topRegion [⟨"Bogor", 1, 9, 5, 7, 3, 2⟩, ⟨"Depok", 1, 8, 4, 6, 2, 5⟩] =
        some (⟨"Bogor", 1, 9, 5, 7, 3, 2⟩ : SPKRow).Wilayah ∧
     topScore [⟨"Bogor", 1, 9, 5, 7, 3, 2⟩, ⟨"Depok", 1, 8, 4, 6, 2, 5⟩] =
        some (⟨"Bogor", 1, 9, 5, 7, 3, 2⟩ : SPKRow).Skor_TOPSIS) :=
  ⟨by decide, rank1_duplicates_first_row _ _ (by decide)⟩
